import Mathlib

/-!
Shallow embedding of the diff-analysis and commit-classification core of
`docs/skills/git-commit-messages/commit-generator.py`.

The Python functions `analyze_changes`, `determine_commit_type`,
`determine_scope` and `generate_subject` are translated into executable Lean
definitions.  Python strings are modelled as Lean `String`s operated on via
their character lists; Python `set`s are modelled as insertion-ordered
duplicate-free lists (membership and cardinality are what the code uses);
`str.lower()` is modelled for ASCII; `pathlib.Path` is modelled as a POSIX
path (components split on `/`, empty and `.` components dropped).
-/

namespace CommitGen

/-- True when `pre` is a prefix of `s` (model of Python `str.startswith`). -/
def startsWithStr (s pre : String) : Bool :=
  List.isPrefixOf pre.data s.data

/-- True when `sub` occurs as a contiguous substring of `hay`
(model of Python `sub in hay`). -/
def hasSub : List Char → List Char → Bool
  | [], n => n.isEmpty
  | c :: t, n => List.isPrefixOf n (c :: t) || hasSub t n

/-- String-level wrapper around `hasSub`. -/
def containsSub (hay sub : String) : Bool :=
  hasSub hay.data sub.data

/-- True when some needle of `subs` occurs in `hay`
(model of Python `any(x in hay for x in subs)`). -/
def containsAny (hay : String) (subs : List String) : Bool :=
  subs.any (fun n => containsSub hay n)

/-- All start indices (in increasing order) at which `needle` occurs in
`hay`. -/
def subIndices : List Char → List Char → List Nat
  | [], n => if n.isEmpty then [0] else []
  | c :: t, n =>
    (if List.isPrefixOf n (c :: t) then [0] else []) ++
      (subIndices t n).map (· + 1)

/-- Python `s.split(sep)` for a one-character separator: the empty string
splits to `[[]]`, a trailing separator yields a trailing empty piece. -/
def splitOnChar (sep : Char) : List Char → List (List Char)
  | [] => [[]]
  | x :: xs =>
    let r := splitOnChar sep xs
    if x = sep then [] :: r
    else
      match r with
      | h :: t => (x :: h) :: t
      | [] => [[x]]

/-- The lines of a diff, as produced by Python `diff.split('\n')`. -/
def pyLines (s : String) : List String :=
  (splitOnChar '\n' s.data).map String.mk

/-- ASCII model of Python `str.lower()`. -/
def lowerStr (s : String) : String :=
  String.mk (s.data.map Char.toLower)

/-- Adds an element to a set modelled as an insertion-ordered
duplicate-free list (model of Python `set.add`). -/
def insertSet (l : List String) (x : String) : List String :=
  if x ∈ l then l else l ++ [x]

/-- Number of occurrences of `x` in `l` (model of Python `list.count`). -/
def countOcc (l : List String) (x : String) : Nat :=
  (l.filter (fun y => y = x)).length

/-- Model of Python `max(set(l), key=l.count)` for a nonempty `l`: among the
distinct elements (in first-occurrence order) pick the first achieving the
maximal occurrence count.  Python iterates the set in unspecified order; the
embedding fixes first-occurrence order as the deterministic choice. -/
def maxByCount (l : List String) : String :=
  match l.foldl insertSet [] with
  | [] => ""
  | u :: us => us.foldl (fun best c => if countOcc l c > countOcc l best then c else best) u

/-- The non-root components of a POSIX path: split on `/`, dropping empty
and `.` components (model of `pathlib.PurePosixPath` component parsing). -/
def pyComponents (p : String) : List String :=
  ((splitOnChar '/' p.data).map String.mk).filter
    (fun s => !(s == "") && !(s == "."))

/-- Model of `pathlib.Path(p).parts`: an optional root followed by the
components.  A double (but not triple) leading slash is the special POSIX
root `//`. -/
def pyParts (p : String) : List String :=
  let root :=
    if startsWithStr p "//" && !(startsWithStr p "///") then ["//"]
    else if startsWithStr p "/" then ["/"]
    else []
  root ++ pyComponents p

/-- Model of `pathlib.Path(p).name`: the last component, `""` when there is
none. -/
def pyName (p : String) : String :=
  ((pyComponents p).getLast?).getD ""

/-- Model of `pathlib.Path(p).suffix`: the last component's text from its
last `.` to the end, provided that `.` is neither the component's first nor
its last character; otherwise `""`.  In particular `.env` and `file.` have
suffix `""`. -/
def pySuffix (p : String) : String :=
  let cs := (pyName p).data
  match (subIndices cs ['.']).getLast? with
  | none => ""
  | some i => if 0 < i ∧ i + 1 < cs.length then String.mk (cs.drop i) else ""

/-- The running analysis record built by `analyze_changes` (the Python
`analysis` dictionary, as a fixed-shape record). -/
structure ChangeSummary where
  has_new_files : Bool
  has_deleted_files : Bool
  has_modified_files : Bool
  has_renamed_files : Bool
  modified_extensions : List String
  affected_paths : List String
  lines_added : Nat
  lines_deleted : Nat
  test_files : Nat
  config_files : Nat
  doc_files : Nat
deriving Repr, DecidableEq

/-- The all-default summary the analysis starts from. -/
def initSummary : ChangeSummary :=
  { has_new_files := false
    has_deleted_files := false
    has_modified_files := false
    has_renamed_files := false
    modified_extensions := []
    affected_paths := []
    lines_added := 0
    lines_deleted := 0
    test_files := 0
    config_files := 0
    doc_files := 0 }

/-- The literal prefix of the file-pair header regex. -/
def headerLit : List Char := "diff --git a/".data

/-- Model of `re.search(r'diff --git a/(.+) b/(.+)', line)`: the leftmost
start of the literal `diff --git a/` after which a greedy split on the last
viable ` b/` leaves both groups nonempty; returns `(old_path, new_path)`. -/
def headerMatch (line : String) : Option (String × String) :=
  let cs := line.data
  ((subIndices cs headerLit).filterMap (fun p =>
    let rest := cs.drop (p + headerLit.length)
    match ((subIndices rest " b/".data).filter
        (fun j => decide (1 ≤ j) && decide (j + 3 < rest.length))).getLast? with
    | some j => some (String.mk (rest.take j), String.mk (rest.drop (j + 3)))
    | none => none)).head?

/-- Records the new path's lowercase extension when nonempty
(the `ext = Path(new_path).suffix.lower(); if ext:` step). -/
def addExt (a : ChangeSummary) (np : String) : ChangeSummary :=
  if lowerStr (pySuffix np) ≠ "" then
    { a with modified_extensions := insertSet a.modified_extensions (lowerStr (pySuffix np)) }
  else a

/-- Buckets the new path into test / config / doc counters by
case-insensitive substring checks, first bucket wins (the `# Categorize
files` step). -/
def categorize (a : ChangeSummary) (np : String) : ChangeSummary :=
  if containsAny (lowerStr np) ["test", "spec", "__tests__"] then
    { a with test_files := a.test_files + 1 }
  else if containsAny (lowerStr np) ["config", "package.json", "requirements.txt", ".env"] then
    { a with config_files := a.config_files + 1 }
  else if containsAny (lowerStr np) ["readme", "docs", ".md", ".txt"] then
    { a with doc_files := a.doc_files + 1 }
  else a

/-- Effect of a matched `diff --git` header line with new path `np`. -/
def applyHeader (a : ChangeSummary) (np : String) : ChangeSummary :=
  categorize (addExt { a with affected_paths := insertSet a.affected_paths np } np) np

/-- One iteration of the scan loop in `analyze_changes`: the Python
`if`/`elif` chain over a single line. -/
def processLine (a : ChangeSummary) (line : String) : ChangeSummary :=
  if startsWithStr line "diff --git" then
    match headerMatch line with
    | some pr => applyHeader a pr.2
    | none => a
  else if startsWithStr line "new file mode" then { a with has_new_files := true }
  else if startsWithStr line "deleted file mode" then { a with has_deleted_files := true }
  else if startsWithStr line "rename" then { a with has_renamed_files := true }
  else if startsWithStr line "+" && !(startsWithStr line "+++") then
    { a with lines_added := a.lines_added + 1 }
  else if startsWithStr line "-" && !(startsWithStr line "---") then
    { a with lines_deleted := a.lines_deleted + 1 }
  else a

/-- Translation of `analyze_changes`. -/
def analyze_changes (diff : String) : ChangeSummary :=
  (pyLines diff).foldl processLine initSummary

/-- The new path contributed by a line, when the line is processed as a
file-pair header (it starts with `diff --git` and the regex matches). -/
def matchedPath (line : String) : Option String :=
  if startsWithStr line "diff --git" then (headerMatch line).map Prod.snd
  else none

/-- The new paths of all matched file-pair header lines of a diff, in
order, with multiplicity. -/
def matchedHeaderPaths (diff : String) : List String :=
  (pyLines diff).filterMap matchedPath

/-- Translation of `determine_commit_type`: the ordered rule cascade. -/
def determine_commit_type (a : ChangeSummary) : String :=
  if a.test_files > 0 ∧ a.test_files = a.affected_paths.length then "test"
  else if a.doc_files > 0 ∧ a.doc_files = a.affected_paths.length then "docs"
  else if a.config_files > 0 ∧
      a.modified_extensions.any (fun ext => [".json", ".yml", ".yaml", ".toml", ".ini"].contains ext) then
    "chore"
  else if a.has_new_files ∧ ¬a.has_modified_files ∧ ¬a.has_deleted_files then "feat"
  else if a.has_deleted_files ∧ ¬a.has_new_files ∧ ¬a.has_modified_files then "chore"
  else if a.lines_added > a.lines_deleted * 2 then "feat"
  else if a.lines_deleted > a.lines_added * 2 then "refactor"
  else "fix"

/-- The scope candidate contributed by one affected path in
`determine_scope`: the lowercased first part when the path has more than one
part and that segment is not reserved. -/
def scopeCandOf (path : String) : Option String :=
  match pyParts path with
  | s :: _ :: _ =>
    if lowerStr s ∈ ["src", "lib", "app", "test", "tests", "docs"] then none
    else some (lowerStr s)
  | _ => none

/-- The `scopes` list accumulated by the loop in `determine_scope`. -/
def scopesOf (paths : List String) : List String :=
  paths.foldl
    (fun acc path =>
      match scopeCandOf path with
      | some sc => acc ++ [sc]
      | none => acc) []

/-- Translation of `determine_scope`. -/
def determine_scope (a : ChangeSummary) : String :=
  if a.affected_paths = [] then ""
  else if scopesOf a.affected_paths ≠ [] then
    if (scopesOf a.affected_paths).length = 1 then (scopesOf a.affected_paths).headD ""
    else maxByCount (scopesOf a.affected_paths)
  else ""

/-- The description chosen by `generate_subject` for a commit type. -/
def subjectDesc (t : String) (a : ChangeSummary) : String :=
  if t = "feat" then
    if a.has_new_files then "add new functionality" else "implement new feature"
  else if t = "fix" then "fix issue"
  else if t = "docs" then "update documentation"
  else if t = "test" then "add tests"
  else if t = "refactor" then "refactor code"
  else if t = "style" then "update code style"
  else if t = "chore" then "update configuration"
  else "update code"

/-- Translation of `generate_subject`. -/
def generate_subject (t s : String) (a : ChangeSummary) : String :=
  (if s ≠ "" then t ++ "(" ++ s ++ ")" else t) ++ ": " ++ subjectDesc t a

/-- The analysis-to-classification pipeline: commit type, scope and subject
line, as composed by `generate_commit_message`. -/
def classify (a : ChangeSummary) : String × String × String :=
  (determine_commit_type a, determine_scope a,
    generate_subject (determine_commit_type a) (determine_scope a) a)

/-- True for a path whose lowercased text contains one of the test-bucket
needles, i.e. the path is counted into `test_files`. -/
def isTestCat (p : String) : Bool :=
  containsAny (lowerStr p) ["test", "spec", "__tests__"]

/-- True for a line on which the scan of `analyze_changes` leaves the
summary unchanged: it is not a matched file-pair header, not a file-status
marker, and not a changed line. -/
def lineInert (l : String) : Bool :=
  (matchedPath l).isNone
  && !(startsWithStr l "new file mode")
  && !(startsWithStr l "deleted file mode")
  && !(startsWithStr l "rename")
  && !(startsWithStr l "+" && !(startsWithStr l "+++"))
  && !(startsWithStr l "-" && !(startsWithStr l "---"))

/-- Spec-side scope candidates, following the specification's words as
amended: for each affected path with more than one path segment, its first
segment lowercased, kept when not reserved. -/
def scopeSpecCandidates (paths : List String) : List String :=
  paths.filterMap (fun p =>
    match pyParts p with
    | s :: _ :: _ =>
      if lowerStr s ∈ ["src", "lib", "app", "test", "tests", "docs"] then none
      else some (lowerStr s)
    | _ => none)

/-- Spec-side scope selection, following the specification's words: empty
scope when no candidate remains, the sole candidate when one remains, and
the most frequent candidate (first-encountered on ties) when several
remain. -/
def scopeSpecAmended (paths : List String) : String :=
  match scopeSpecCandidates paths with
  | [] => ""
  | [c] => c
  | cs => maxByCount cs

/-- Scope candidates exactly as the claim states them, with no guard on the
number of path segments: the first path segment of EVERY affected path,
lowercased, kept when not reserved. -/
def scopeSpecClaimCandidates (paths : List String) : List String :=
  paths.filterMap (fun p =>
    match pyParts p with
    | s :: _ =>
      if lowerStr s ∈ ["src", "lib", "app", "test", "tests", "docs"] then none
      else some (lowerStr s)
    | [] => none)

/-- Scope selection exactly as the claim states it, applied on
`scopeSpecClaimCandidates`. -/
def scopeSpecClaim (paths : List String) : String :=
  match scopeSpecClaimCandidates paths with
  | [] => ""
  | [c] => c
  | cs => maxByCount cs

/-- Extension extraction exactly as the claim states it: the text of the
last path component from its last `.` to the end (including the dot),
lowercased, with no exclusion of components that begin with a dot. -/
def extensionSpecClaim (p : String) : String :=
  match (subIndices (pyName p).data ['.']).getLast? with
  | none => ""
  | some i => lowerStr (String.mk ((pyName p).data.drop i))

/-- A diff in which the same path occurs in two file-pair header lines. -/
def dupTestDiff : String :=
  "diff --git a/test b/test\ndiff --git a/test b/test"

/-- A diff in which the same test-named path occurs in two file-pair header
lines. -/
def dupTestDiff2 : String :=
  "diff --git a/atest b/atest\ndiff --git a/atest b/atest"

/-- A diff consisting of a single `new file mode` status line. -/
def newModeDiff : String := "new file mode 100644"

/-- A diff whose single header names a path whose last component begins
with a dot. -/
def envDiff : String := "diff --git a/.env b/.env"

/-- A block of `n` added lines, each reading `+line`, preceded by
newlines. -/
def plusLines : Nat → String
  | 0 => ""
  | n + 1 => "\n+line" ++ plusLines n

/-- The end-to-end scenario diff: one new file `docs/guide.md` with 100
added lines. -/
def guideDiff : String :=
  "diff --git a/docs/guide.md b/docs/guide.md\nnew file mode 100644\nindex 0000000..1111111\n--- /dev/null\n+++ b/docs/guide.md\n@@ -0,0 +1,100 @@"
    ++ plusLines 100

/-! Basic facts about the set model. -/

lemma mem_insertSet_self (l : List String) (x : String) : x ∈ insertSet l x := by
  unfold insertSet
  split_ifs with h
  · exact h
  · simp

lemma mem_insertSet_of_mem (l : List String) (x y : String) (hx : x ∈ l) :
    x ∈ insertSet l y := by
  unfold insertSet
  split_ifs
  · exact hx
  · exact List.mem_append_left _ hx

lemma foldl_insertSet_of_nodup :
    ∀ (hs l : List String), hs.Nodup → (∀ x ∈ hs, x ∉ l) →
      hs.foldl insertSet l = l ++ hs := by
  intro hs
  induction hs with
  | nil => intro l _ _; simp
  | cons h t ih =>
    intro l hnd hdisj
    rw [List.foldl_cons]
    have h1 : insertSet l h = l ++ [h] := by
      unfold insertSet
      rw [if_neg (hdisj h (by simp))]
    have hnd' := (List.nodup_cons.mp hnd)
    rw [h1, ih (l ++ [h]) hnd'.2 ?_]
    · simp
    · intro x hx
      simp only [List.mem_append, List.mem_singleton]
      rintro (hxl | hxh)
      · exact hdisj x (List.mem_cons_of_mem _ hx) hxl
      · exact hnd'.1 (hxh ▸ hx)

/-! Per-field behavior of the header-line handler. -/

lemma addExt_test (a : ChangeSummary) (np : String) :
    (addExt a np).test_files = a.test_files := by
  unfold addExt; split_ifs <;> rfl

lemma addExt_config (a : ChangeSummary) (np : String) :
    (addExt a np).config_files = a.config_files := by
  unfold addExt; split_ifs <;> rfl

lemma addExt_doc (a : ChangeSummary) (np : String) :
    (addExt a np).doc_files = a.doc_files := by
  unfold addExt; split_ifs <;> rfl

lemma addExt_affected (a : ChangeSummary) (np : String) :
    (addExt a np).affected_paths = a.affected_paths := by
  unfold addExt; split_ifs <;> rfl

lemma addExt_hmf (a : ChangeSummary) (np : String) :
    (addExt a np).has_modified_files = a.has_modified_files := by
  unfold addExt; split_ifs <;> rfl

lemma addExt_ext_mem (a : ChangeSummary) (np : String)
    (h : lowerStr (pySuffix np) ≠ "") :
    lowerStr (pySuffix np) ∈ (addExt a np).modified_extensions := by
  unfold addExt
  rw [if_pos h]
  exact mem_insertSet_self _ _

lemma addExt_ext_mono (a : ChangeSummary) (np : String) (x : String)
    (hx : x ∈ a.modified_extensions) : x ∈ (addExt a np).modified_extensions := by
  unfold addExt
  split_ifs
  · exact mem_insertSet_of_mem _ _ _ hx
  · exact hx

lemma categorize_exts (a : ChangeSummary) (np : String) :
    (categorize a np).modified_extensions = a.modified_extensions := by
  unfold categorize; split_ifs <;> rfl

lemma categorize_affected (a : ChangeSummary) (np : String) :
    (categorize a np).affected_paths = a.affected_paths := by
  unfold categorize; split_ifs <;> rfl

lemma categorize_hmf (a : ChangeSummary) (np : String) :
    (categorize a np).has_modified_files = a.has_modified_files := by
  unfold categorize; split_ifs <;> rfl

lemma categorize_test (a : ChangeSummary) (np : String) :
    (categorize a np).test_files = a.test_files + (if isTestCat np then 1 else 0) := by
  unfold categorize isTestCat
  split_ifs <;> simp_all

lemma categorize_sum_le (a : ChangeSummary) (np : String) :
    (categorize a np).test_files + (categorize a np).config_files +
      (categorize a np).doc_files ≤ a.test_files + a.config_files + a.doc_files + 1 := by
  unfold categorize
  split_ifs <;> simp <;> omega

lemma applyHeader_affected (a : ChangeSummary) (np : String) :
    (applyHeader a np).affected_paths = insertSet a.affected_paths np := by
  unfold applyHeader
  rw [categorize_affected, addExt_affected]

lemma applyHeader_hmf (a : ChangeSummary) (np : String) :
    (applyHeader a np).has_modified_files = a.has_modified_files := by
  unfold applyHeader
  rw [categorize_hmf, addExt_hmf]

lemma applyHeader_test (a : ChangeSummary) (np : String) :
    (applyHeader a np).test_files = a.test_files + (if isTestCat np then 1 else 0) := by
  unfold applyHeader
  rw [categorize_test, addExt_test]

lemma applyHeader_sum_le (a : ChangeSummary) (np : String) :
    (applyHeader a np).test_files + (applyHeader a np).config_files +
      (applyHeader a np).doc_files ≤
      a.test_files + a.config_files + a.doc_files + 1 := by
  unfold applyHeader
  calc (categorize (addExt { a with affected_paths := insertSet a.affected_paths np } np) np).test_files +
        (categorize (addExt { a with affected_paths := insertSet a.affected_paths np } np) np).config_files +
        (categorize (addExt { a with affected_paths := insertSet a.affected_paths np } np) np).doc_files
      ≤ (addExt { a with affected_paths := insertSet a.affected_paths np } np).test_files +
        (addExt { a with affected_paths := insertSet a.affected_paths np } np).config_files +
        (addExt { a with affected_paths := insertSet a.affected_paths np } np).doc_files + 1 :=
        categorize_sum_le _ _
    _ = a.test_files + a.config_files + a.doc_files + 1 := by
        rw [addExt_test, addExt_config, addExt_doc]

lemma applyHeader_ext_mem (a : ChangeSummary) (np : String)
    (h : lowerStr (pySuffix np) ≠ "") :
    lowerStr (pySuffix np) ∈ (applyHeader a np).modified_extensions := by
  unfold applyHeader
  rw [categorize_exts]
  exact addExt_ext_mem _ _ h

lemma applyHeader_ext_mono (a : ChangeSummary) (np : String) (x : String)
    (hx : x ∈ a.modified_extensions) : x ∈ (applyHeader a np).modified_extensions := by
  unfold applyHeader
  rw [categorize_exts]
  exact addExt_ext_mono _ _ _ hx

/-! Case analysis of a single scan iteration. -/

lemma processLine_of_matched (a : ChangeSummary) (l : String) (p : String)
    (h : matchedPath l = some p) : processLine a l = applyHeader a p := by
  unfold matchedPath at h
  unfold processLine
  by_cases hs : startsWithStr l "diff --git" = true
  · rw [if_pos hs] at h ⊢
    cases hm : headerMatch l with
    | none => rw [hm] at h; simp at h
    | some pr =>
      rw [hm] at h
      have hp : pr.2 = p := by simpa using h
      show applyHeader a pr.2 = applyHeader a p
      rw [hp]
  · rw [if_neg hs] at h
    simp at h

lemma processLine_of_not_matched (a : ChangeSummary) (l : String)
    (h : matchedPath l = none) :
    (processLine a l).test_files = a.test_files ∧
    (processLine a l).config_files = a.config_files ∧
    (processLine a l).doc_files = a.doc_files ∧
    (processLine a l).affected_paths = a.affected_paths ∧
    (processLine a l).modified_extensions = a.modified_extensions := by
  unfold matchedPath at h
  unfold processLine
  by_cases hs : startsWithStr l "diff --git" = true
  · rw [if_pos hs] at h ⊢
    cases hm : headerMatch l with
    | none => exact ⟨rfl, rfl, rfl, rfl, rfl⟩
    | some pr => rw [hm] at h; simp at h
  · rw [if_neg hs]
    split_ifs <;> exact ⟨rfl, rfl, rfl, rfl, rfl⟩

lemma processLine_hmf (a : ChangeSummary) (l : String) :
    (processLine a l).has_modified_files = a.has_modified_files := by
  unfold processLine
  by_cases hs : startsWithStr l "diff --git" = true
  · rw [if_pos hs]
    cases hm : headerMatch l with
    | none => rfl
    | some pr => exact applyHeader_hmf a pr.2
  · rw [if_neg hs]
    split_ifs <;> rfl

lemma processLine_of_inert (a : ChangeSummary) (l : String)
    (h : lineInert l = true) : processLine a l = a := by
  unfold lineInert at h
  simp only [Bool.and_eq_true, Bool.not_eq_true', Option.isNone_iff_eq_none] at h
  obtain ⟨⟨⟨⟨⟨h0, h1⟩, h2⟩, h3⟩, h4⟩, h5⟩ := h
  unfold matchedPath at h0
  unfold processLine
  by_cases hs : startsWithStr l "diff --git" = true
  · rw [if_pos hs] at h0 ⊢
    cases hm : headerMatch l with
    | none => rfl
    | some pr => rw [hm] at h0; simp at h0
  · rw [if_neg hs]
    rw [if_neg (by simp [h1]), if_neg (by simp [h2]), if_neg (by simp [h3]),
      if_neg (by simp [h4]), if_neg (by simp [h5])]

/-! Invariants of the whole scan, by induction on the list of lines. -/

lemma scan_hmf :
    ∀ (ls : List String) (a : ChangeSummary),
      (ls.foldl processLine a).has_modified_files = a.has_modified_files := by
  intro ls
  induction ls with
  | nil => intro a; rfl
  | cons l t ih =>
    intro a
    rw [List.foldl_cons, ih, processLine_hmf]

lemma scan_affected :
    ∀ (ls : List String) (a : ChangeSummary),
      (ls.foldl processLine a).affected_paths =
        (ls.filterMap matchedPath).foldl insertSet a.affected_paths := by
  intro ls
  induction ls with
  | nil => intro a; rfl
  | cons l t ih =>
    intro a
    rw [List.foldl_cons, List.filterMap_cons]
    cases hm : matchedPath l with
    | none =>
      rw [ih, (processLine_of_not_matched a l hm).2.2.2.1]
    | some p =>
      rw [processLine_of_matched a l p hm, ih, List.foldl_cons, applyHeader_affected]

lemma scan_sum_le :
    ∀ (ls : List String) (a : ChangeSummary),
      (ls.foldl processLine a).test_files + (ls.foldl processLine a).config_files +
          (ls.foldl processLine a).doc_files ≤
        a.test_files + a.config_files + a.doc_files + (ls.filterMap matchedPath).length := by
  intro ls
  induction ls with
  | nil => intro a; simp
  | cons l t ih =>
    intro a
    rw [List.foldl_cons, List.filterMap_cons]
    cases hm : matchedPath l with
    | none =>
      obtain ⟨e1, e2, e3, _, _⟩ := processLine_of_not_matched a l hm
      have := ih (processLine a l)
      rw [e1, e2, e3] at this
      exact this
    | some p =>
      rw [processLine_of_matched a l p hm]
      have h1 := ih (applyHeader a p)
      have h2 := applyHeader_sum_le a p
      simp only [List.length_cons]
      omega

lemma scan_test :
    ∀ (ls : List String) (a : ChangeSummary),
      (ls.foldl processLine a).test_files =
        a.test_files + ((ls.filterMap matchedPath).filter isTestCat).length := by
  intro ls
  induction ls with
  | nil => intro a; simp
  | cons l t ih =>
    intro a
    rw [List.foldl_cons, List.filterMap_cons]
    cases hm : matchedPath l with
    | none =>
      obtain ⟨e1, _, _, _, _⟩ := processLine_of_not_matched a l hm
      rw [ih, e1]
    | some p =>
      rw [processLine_of_matched a l p hm, ih, applyHeader_test]
      cases hp : isTestCat p
      · simp [List.filter_cons, hp]
      · simp [List.filter_cons, hp]
        omega

lemma scan_ext_mono :
    ∀ (ls : List String) (a : ChangeSummary) (x : String),
      x ∈ a.modified_extensions → x ∈ (ls.foldl processLine a).modified_extensions := by
  intro ls
  induction ls with
  | nil => intro a x hx; exact hx
  | cons l t ih =>
    intro a x hx
    rw [List.foldl_cons]
    apply ih
    cases hm : matchedPath l with
    | none => rw [(processLine_of_not_matched a l hm).2.2.2.2]; exact hx
    | some p =>
      rw [processLine_of_matched a l p hm]
      exact applyHeader_ext_mono _ _ _ hx

lemma scan_ext_mem :
    ∀ (ls : List String) (a : ChangeSummary) (p : String),
      p ∈ ls.filterMap matchedPath → lowerStr (pySuffix p) ≠ "" →
        lowerStr (pySuffix p) ∈ (ls.foldl processLine a).modified_extensions := by
  intro ls
  induction ls with
  | nil => intro a p hp _; simp at hp
  | cons l t ih =>
    intro a p hp hne
    rw [List.foldl_cons]
    rw [List.filterMap_cons] at hp
    cases hm : matchedPath l with
    | none =>
      rw [hm] at hp
      exact ih _ p hp hne
    | some q =>
      rw [hm] at hp
      rcases List.mem_cons.mp hp with hpq | hpt
      · subst hpq
        rw [processLine_of_matched a l p hm]
        exact scan_ext_mono t _ _ (applyHeader_ext_mem a p hne)
      · exact ih _ p hpt hne

lemma scan_inert :
    ∀ (ls : List String) (a : ChangeSummary),
      (∀ l ∈ ls, lineInert l = true) → ls.foldl processLine a = a := by
  intro ls
  induction ls with
  | nil => intro a _; rfl
  | cons l t ih =>
    intro a h
    rw [List.foldl_cons, processLine_of_inert a l (h l (by simp))]
    exact ih a (fun x hx => h x (List.mem_cons_of_mem _ hx))

/-! Facts about scope extraction. -/

lemma foldl_scopes_eq :
    ∀ (paths acc : List String),
      paths.foldl
        (fun acc path =>
          match scopeCandOf path with
          | some sc => acc ++ [sc]
          | none => acc) acc
        = acc ++ paths.filterMap scopeCandOf := by
  intro paths
  induction paths with
  | nil => intro acc; simp
  | cons p t ih =>
    intro acc
    simp only [List.foldl_cons, List.filterMap_cons]
    cases h : scopeCandOf p with
    | none => rw [ih]
    | some sc =>
      rw [ih]
      simp

lemma scopesOf_eq_spec (paths : List String) :
    scopesOf paths = scopeSpecCandidates paths := by
  unfold scopesOf scopeSpecCandidates
  rw [foldl_scopes_eq]
  rfl

lemma splitOnChar_of_not_mem :
    ∀ (cs : List Char) (c : Char), c ∉ cs → splitOnChar c cs = [cs] := by
  intro cs c
  induction cs with
  | nil => intro _; rfl
  | cons x xs ih =>
    intro h
    have hx : ¬(x = c) := fun he => h (he ▸ List.mem_cons_self x xs)
    have hxs : c ∉ xs := fun hc => h (List.mem_cons_of_mem _ hc)
    simp only [splitOnChar]
    rw [if_neg hx, ih hxs]

lemma isPrefixOf_false_of_head_ne (d : Char) (ds : List Char) (c : Char) (cs : List Char)
    (h : ¬(d = c)) : List.isPrefixOf (d :: ds) (c :: cs) = false := by
  simp [List.isPrefixOf, h]

lemma scopeCandOf_of_noSlash (p : String) (h : ('/' : Char) ∉ p.data) :
    scopeCandOf p = none := by
  have h1 : startsWithStr p "/" = false := by
    unfold startsWithStr
    cases hd : p.data with
    | nil => decide
    | cons c cs =>
      have hc : ¬(('/' : Char) = c) := by
        intro he
        rw [hd] at h
        exact h (he ▸ List.mem_cons_self c cs)
      exact isPrefixOf_false_of_head_ne _ _ _ _ hc
  have h2 : startsWithStr p "//" = false := by
    unfold startsWithStr
    cases hd : p.data with
    | nil => decide
    | cons c cs =>
      have hc : ¬(('/' : Char) = c) := by
        intro he
        rw [hd] at h
        exact h (he ▸ List.mem_cons_self c cs)
      exact isPrefixOf_false_of_head_ne _ _ _ _ hc
  have hparts : pyParts p = [] ∨ ∃ s, pyParts p = [s] := by
    unfold pyParts pyComponents
    rw [splitOnChar_of_not_mem p.data '/' h]
    simp only [h1, h2, Bool.false_and, if_false, Bool.false_eq_true, List.map_cons,
      List.map_nil, List.nil_append]
    cases hpred : (!(String.mk p.data == "") && !(String.mk p.data == ".")) with
    | false => left; simp [List.filter_cons, hpred]
    | true => right; exact ⟨String.mk p.data, by simp [List.filter_cons, hpred]⟩
  unfold scopeCandOf
  rcases hparts with h0 | ⟨s, h1⟩
  · rw [h0]
  · rw [h1]

lemma scopesOf_nil_of_all_none (paths : List String)
    (h : ∀ p ∈ paths, scopeCandOf p = none) : scopesOf paths = [] := by
  rw [scopesOf_eq_spec]
  have hspec : scopeSpecCandidates paths = paths.filterMap scopeCandOf := rfl
  rw [hspec]
  exact List.filterMap_eq_nil_iff.mpr h

/-! The claims. -/

/-- C1, counterexample: in a diff whose two file-pair header lines name the
same path `test`, the counters sum to 2 while the affected-path set has one
element, so the claimed inequality fails. -/
theorem C1_counterexample :
    ¬((analyze_changes dupTestDiff).test_files + (analyze_changes dupTestDiff).config_files +
        (analyze_changes dupTestDiff).doc_files ≤
        (analyze_changes dupTestDiff).affected_paths.length) := by decide

/-- C1 (amended): for every diff in which no two matched file-pair header
lines share the same new path, the summary satisfies
`test_files + config_files + doc_files ≤ |affected_paths|`. -/
theorem C1_amended (diff : String) (h : (matchedHeaderPaths diff).Nodup) :
    (analyze_changes diff).test_files + (analyze_changes diff).config_files +
        (analyze_changes diff).doc_files ≤
      (analyze_changes diff).affected_paths.length := by
  have hsum := scan_sum_le (pyLines diff) initSummary
  have hpaths := scan_affected (pyLines diff) initSummary
  unfold matchedHeaderPaths at h
  have e0 : initSummary.affected_paths = ([] : List String) := rfl
  unfold analyze_changes
  rw [hpaths, e0, foldl_insertSet_of_nodup _ _ h (by simp), List.nil_append]
  have e1 : initSummary.test_files = 0 := rfl
  have e2 : initSummary.config_files = 0 := rfl
  have e3 : initSummary.doc_files = 0 := rfl
  rw [e1, e2, e3] at hsum
  omega

/-- C1, witness: a concrete one-header diff satisfying the amended claim's
hypothesis and conclusion. -/
theorem C1_witness :
    (matchedHeaderPaths "diff --git a/a.py b/a.py").Nodup ∧
    (analyze_changes "diff --git a/a.py b/a.py").test_files +
          (analyze_changes "diff --git a/a.py b/a.py").config_files +
          (analyze_changes "diff --git a/a.py b/a.py").doc_files ≤
        (analyze_changes "diff --git a/a.py b/a.py").affected_paths.length :=
  ⟨by decide, C1_amended "diff --git a/a.py b/a.py" (by decide)⟩

/-- C2, counterexample: a diff whose two matched header lines repeat the
same test-named path has one affected path, that path contains `test`, yet
the commit type is `fix`, not `test`. -/
theorem C2_counterexample :
    (analyze_changes dupTestDiff2).affected_paths = ["atest"] ∧
    containsSub (lowerStr "atest") "test" = true ∧
    (classify (analyze_changes dupTestDiff2)).1 = "fix" ∧
    (classify (analyze_changes dupTestDiff2)).1 ≠ "test" := by decide

/-- C2 (amended): for every diff with at least one matched file-pair header
line, in which no two matched header lines share the same new path and
every matched new path contains `test` case-insensitively, the classifier
returns type `test`. -/
theorem C2_amended (diff : String)
    (h1 : matchedHeaderPaths diff ≠ [])
    (h2 : (matchedHeaderPaths diff).Nodup)
    (h3 : ∀ p ∈ matchedHeaderPaths diff, containsSub (lowerStr p) "test" = true) :
    (classify (analyze_changes diff)).1 = "test" := by
  have htest := scan_test (pyLines diff) initSummary
  have hpaths := scan_affected (pyLines diff) initSummary
  unfold matchedHeaderPaths at h1 h2 h3
  have hfil : ((pyLines diff).filterMap matchedPath).filter isTestCat
      = (pyLines diff).filterMap matchedPath := by
    apply List.filter_eq_self.mpr
    intro p hp
    unfold isTestCat containsAny
    simp only [List.any_eq_true]
    exact ⟨"test", by simp, h3 p hp⟩
  have e0 : initSummary.affected_paths = ([] : List String) := rfl
  have e1 : initSummary.test_files = 0 := rfl
  have haff : (analyze_changes diff).affected_paths = (pyLines diff).filterMap matchedPath := by
    unfold analyze_changes
    rw [hpaths, e0, foldl_insertSet_of_nodup _ _ h2 (by simp), List.nil_append]
  have htf : (analyze_changes diff).test_files
      = ((pyLines diff).filterMap matchedPath).length := by
    unfold analyze_changes
    rw [htest, e1, hfil, Nat.zero_add]
  show determine_commit_type (analyze_changes diff) = "test"
  unfold determine_commit_type
  rw [if_pos]
  constructor
  · rw [htf]
    exact List.length_pos.mpr h1
  · rw [htf, haff]

/-- C2, witness: a concrete single-header test-path diff satisfying the
amended claim's hypotheses and conclusion. -/
theorem C2_witness :
    (matchedHeaderPaths "diff --git a/tests/util.py b/tests/util.py" ≠ [] ∧
      (matchedHeaderPaths "diff --git a/tests/util.py b/tests/util.py").Nodup) ∧
    (classify (analyze_changes "diff --git a/tests/util.py b/tests/util.py")).1 = "test" :=
  ⟨⟨by decide, by decide⟩,
    C2_amended "diff --git a/tests/util.py b/tests/util.py" (by decide) (by decide) (by decide)⟩

/-- C3, counterexample: on a summary whose only affected path is the
single-segment `hello.js`, the code returns scope `""` while the claimed
procedure (first segment of every path) returns `"hello.js"`. -/
theorem C3_counterexample :
    determine_scope { initSummary with affected_paths := ["hello.js"] } = "" ∧
    scopeSpecClaim ["hello.js"] = "hello.js" := by decide

/-- C3 (amended): the scope equals the procedure that takes, for each
affected path with more than one path segment, its first segment
lowercased, discards reserved segments, and returns `""` with no candidate,
the sole candidate with one, and the most frequent candidate (first
encountered on ties) with several; in particular a diff touching only
`frontend/app.js` yields scope `"frontend"` and one touching only
`src/app.js` yields scope `""`. -/
theorem C3_amended (a : ChangeSummary) :
    determine_scope a = scopeSpecAmended a.affected_paths ∧
    (classify (analyze_changes "diff --git a/frontend/app.js b/frontend/app.js")).2.1
      = "frontend" ∧
    (classify (analyze_changes "diff --git a/src/app.js b/src/app.js")).2.1 = "" := by
  refine ⟨?_, by decide, by decide⟩
  unfold determine_scope scopeSpecAmended
  by_cases hap : a.affected_paths = []
  · rw [if_pos hap, hap]
    rfl
  · rw [if_neg hap, scopesOf_eq_spec]
    rcases hcs : scopeSpecCandidates a.affected_paths with _ | ⟨c, _ | ⟨c2, t⟩⟩
    · simp
    · simp
    · rw [if_pos (by simp), if_neg (by simp only [List.length_cons]; omega)]

/-- C4: the scan of `analyze_changes` never sets `has_modified_files`; it
is `false` for every input diff string. -/
theorem C4_theorem (diff : String) :
    (analyze_changes diff).has_modified_files = false := by
  unfold analyze_changes
  rw [scan_hmf]
  rfl

/-- C4, witness: the flag is `false` on a concrete diff. -/
theorem C4_witness : (analyze_changes newModeDiff).has_modified_files = false :=
  C4_theorem newModeDiff

/-- C5, counterexample: the diff consisting of the single status line
`new file mode 100644` has zero changed lines and zero matched file-pair
headers, yet its summary has `has_new_files = true` and the classifier
returns type `feat`, not `fix`. -/
theorem C5_counterexample :
    (analyze_changes newModeDiff).lines_added = 0 ∧
    (analyze_changes newModeDiff).lines_deleted = 0 ∧
    matchedHeaderPaths newModeDiff = [] ∧
    (analyze_changes newModeDiff).has_new_files = true ∧
    (classify (analyze_changes newModeDiff)).1 = "feat" ∧
    (classify (analyze_changes newModeDiff)).1 ≠ "fix" := by decide

/-- C5 (amended): the pipeline is total by construction, and for every diff
none of whose lines is a matched file-pair header, a file-status marker
(`new file mode`, `deleted file mode`, `rename`), or a changed `+`/`-`
line, the summary is the all-default one and the classifier returns type
`fix` with scope `""`. -/
theorem C5_amended (diff : String) (h : ∀ l ∈ pyLines diff, lineInert l = true) :
    analyze_changes diff = initSummary ∧
    classify (analyze_changes diff) = ("fix", "", "fix: fix issue") := by
  have h0 : analyze_changes diff = initSummary := scan_inert (pyLines diff) initSummary h
  exact ⟨h0, by rw [h0]; decide⟩

/-- C5, witness: the empty diff satisfies the hypothesis and yields the
all-default summary and the `fix` fallback. -/
theorem C5_witness :
    (∀ l ∈ pyLines "", lineInert l = true) ∧
    analyze_changes "" = initSummary ∧
    classify (analyze_changes "") = ("fix", "", "fix: fix issue") :=
  ⟨by decide, C5_amended "" (by decide)⟩

/-- C6: on every summary on which the five leading cascade rules fail, the
type is `feat` when `lines_added > 2 * lines_deleted`, `refactor` when
`lines_deleted > 2 * lines_added`, and `fix` otherwise. -/
theorem C6_theorem (a : ChangeSummary)
    (h1 : ¬(a.test_files > 0 ∧ a.test_files = a.affected_paths.length))
    (h2 : ¬(a.doc_files > 0 ∧ a.doc_files = a.affected_paths.length))
    (h3 : ¬(a.config_files > 0 ∧
      a.modified_extensions.any
        (fun ext => [".json", ".yml", ".yaml", ".toml", ".ini"].contains ext) = true))
    (h4 : ¬(a.has_new_files = true ∧ a.has_deleted_files = false))
    (h5 : ¬(a.has_deleted_files = true ∧ a.has_new_files = false)) :
    (a.lines_added > 2 * a.lines_deleted → determine_commit_type a = "feat") ∧
    (a.lines_deleted > 2 * a.lines_added → determine_commit_type a = "refactor") ∧
    (a.lines_added ≤ 2 * a.lines_deleted → a.lines_deleted ≤ 2 * a.lines_added →
      determine_commit_type a = "fix") := by
  have h4' : ¬(a.has_new_files = true ∧ ¬(a.has_modified_files = true) ∧
      ¬(a.has_deleted_files = true)) := by
    rintro ⟨hn, _, hd⟩
    exact h4 ⟨hn, by simpa using hd⟩
  have h5' : ¬(a.has_deleted_files = true ∧ ¬(a.has_new_files = true) ∧
      ¬(a.has_modified_files = true)) := by
    rintro ⟨hd, hn, _⟩
    exact h5 ⟨hd, by simpa using hn⟩
  unfold determine_commit_type
  rw [if_neg h1, if_neg h2, if_neg h3, if_neg h4', if_neg h5']
  refine ⟨fun h6 => ?_, fun h7 => ?_, fun h8 h9 => ?_⟩
  · rw [if_pos (by omega)]
  · rw [if_neg (by omega), if_pos (by omega)]
  · rw [if_neg (by omega), if_neg (by omega)]

/-- C6, witness: a summary with 10 added and 2 deleted lines and no other
signals is classified `feat`. -/
theorem C6_witness :
    determine_commit_type { initSummary with lines_added := 10, lines_deleted := 2 } = "feat" :=
  (C6_theorem { initSummary with lines_added := 10, lines_deleted := 2 }
    (by decide) (by decide) (by decide) (by decide) (by decide)).1 (by decide)

/-- C7, counterexample: the claim's extraction rule assigns `.env` the
extension `.env`, but on the diff whose header names `.env` the code
records no extension at all, because `pathlib` gives a leading-dot name an
empty suffix. -/
theorem C7_counterexample :
    extensionSpecClaim ".env" = ".env" ∧
    matchedHeaderPaths envDiff = [".env"] ∧
    (analyze_changes envDiff).modified_extensions = [] := by decide

/-- C7 (amended): for every matched header path, the lowercased text of the
last component from its last `.` to the end is recorded in
`modified_extensions` whenever that `.` is neither the component's first
nor its last character (so leading-dot names such as `.env` and
trailing-dot names contribute nothing). -/
theorem C7_amended (diff : String) (p : String)
    (hp : p ∈ matchedHeaderPaths diff)
    (hne : lowerStr (pySuffix p) ≠ "") :
    lowerStr (pySuffix p) ∈ (analyze_changes diff).modified_extensions := by
  unfold matchedHeaderPaths at hp
  unfold analyze_changes
  exact scan_ext_mem (pyLines diff) initSummary p hp hne

/-- C7, witness: the header path `a.MD` contributes the lowercase
extension `.md`. -/
theorem C7_witness :
    ("a.MD" ∈ matchedHeaderPaths "diff --git a/a.MD b/a.MD" ∧
      lowerStr (pySuffix "a.MD") ≠ "") ∧
    lowerStr (pySuffix "a.MD") ∈
      (analyze_changes "diff --git a/a.MD b/a.MD").modified_extensions :=
  ⟨⟨by decide, by decide⟩, C7_amended "diff --git a/a.MD b/a.MD" "a.MD" (by decide) (by decide)⟩

set_option maxRecDepth 16384 in
/-- C8: the end-to-end scenario: the diff with one new file
`docs/guide.md` and 100 added lines yields
`affected_paths = ["docs/guide.md"]`, `doc_files = 1`,
`has_new_files = true`, and the classifier yields type `docs`, scope `""`
and subject `docs: update documentation`. -/
theorem C8_theorem :
    (analyze_changes guideDiff).affected_paths = ["docs/guide.md"] ∧
    (analyze_changes guideDiff).doc_files = 1 ∧
    (analyze_changes guideDiff).has_new_files = true ∧
    classify (analyze_changes guideDiff) = ("docs", "", "docs: update documentation") := by
  have h : analyze_changes guideDiff =
      { initSummary with
          has_new_files := true
          modified_extensions := [".md"]
          affected_paths := ["docs/guide.md"]
          lines_added := 100
          doc_files := 1 } := by decide
  rw [h]
  exact ⟨rfl, rfl, rfl, by decide⟩

lemma subjectDesc_test_val (a : ChangeSummary) : subjectDesc "test" a = "add tests" := rfl

lemma subjectDesc_docs_val (a : ChangeSummary) :
    subjectDesc "docs" a = "update documentation" := rfl

lemma subjectDesc_chore_val (a : ChangeSummary) :
    subjectDesc "chore" a = "update configuration" := rfl

lemma subjectDesc_refactor_val (a : ChangeSummary) :
    subjectDesc "refactor" a = "refactor code" := rfl

lemma subjectDesc_fix_val (a : ChangeSummary) : subjectDesc "fix" a = "fix issue" := rfl

lemma subjectDesc_feat_val (a : ChangeSummary) :
    subjectDesc "feat" a =
      if a.has_new_files then "add new functionality" else "implement new feature" := rfl

/-- C9: the commit type is always one of `test`, `docs`, `chore`, `feat`,
`refactor`, `fix`; it is never `style`, and the subject descriptions
`update code style` and `update code` are unreachable through the
classify-then-subject pipeline. -/
theorem C9_theorem (a : ChangeSummary) :
    determine_commit_type a ∈ (["test", "docs", "chore", "feat", "refactor", "fix"] : List String) ∧
    determine_commit_type a ≠ "style" ∧
    subjectDesc (determine_commit_type a) a ≠ "update code style" ∧
    subjectDesc (determine_commit_type a) a ≠ "update code" := by
  unfold determine_commit_type
  split_ifs <;>
    refine ⟨by decide, by decide, ?_, ?_⟩ <;>
    first
      | (rw [subjectDesc_test_val]; decide)
      | (rw [subjectDesc_docs_val]; decide)
      | (rw [subjectDesc_chore_val]; decide)
      | (rw [subjectDesc_refactor_val]; decide)
      | (rw [subjectDesc_fix_val]; decide)
      | (rw [subjectDesc_feat_val]; cases a.has_new_files <;> decide)

/-- C10: a summary all of whose affected paths are single-segment (contain
no `/`) gets scope `""`: top-level files never contribute a scope
candidate. -/
theorem C10_theorem (a : ChangeSummary)
    (h : ∀ p ∈ a.affected_paths, ('/' : Char) ∉ p.data) :
    determine_scope a = "" := by
  unfold determine_scope
  by_cases hap : a.affected_paths = []
  · rw [if_pos hap]
  · rw [if_neg hap]
    have hs : scopesOf a.affected_paths = [] :=
      scopesOf_nil_of_all_none _ (fun p hp => scopeCandOf_of_noSlash p (h p hp))
    rw [if_neg (by simp [hs])]

/-- C10, witness: a summary whose only affected path is the top-level
`main.c` (not a reserved segment) still gets scope `""`. -/
theorem C10_witness :
    (∀ p ∈ ({ initSummary with affected_paths := ["main.c"] } : ChangeSummary).affected_paths,
        ('/' : Char) ∉ p.data) ∧
    determine_scope { initSummary with affected_paths := ["main.c"] } = "" :=
  ⟨by decide, C10_theorem { initSummary with affected_paths := ["main.c"] } (by decide)⟩

end CommitGen
